import Mathlib

/-!
Verification of the multi-source relational query core
(`crates/bevy_ecs/src/query/plan.rs` and the component declaration macro in
`crates/bevy_ecs/macros/src/component.rs`).

The development shallowly embeds the Rust source: pure data is translated to
Lean structures, the backtracking executor becomes a fuel-indexed function
whose `panicked` result models a Rust panic (index out of bounds / `unwrap`
failure) and whose `fuelOut` result is the embedding artifact for exhausted
fuel.  The external world substrate (entity store, archetypes, tables and
sparse sets) is modelled as a single map from entities to their component
lists, which bakes in the substrate invariants the code relies on (a live
entity has an archetype; a contained component can be fetched from its
storage).
-/

namespace BevyPlan

/-- Entities are opaque identifiers; equality is all the query core uses,
so they are modelled as naturals.  Staleness is modelled by the world map
returning `none`. -/
abbrev Entity := Nat

/-- Registry-assigned dense component id. -/
abbrev ComponentId := Nat

/-- Storage class of a component (`StorageType` in the source): a row in an
archetype table or a keyed sparse set. -/
inductive StorageType where
  | Table
  | SparseSet
  deriving DecidableEq, Repr

/-- The raw in-memory value of one component instance, as far as the query
core can observe it through a type-erased pointer: the `Entity` stored at a
given byte offset.  Reading at any offset yields some entity bits (possibly
dangling), which models `*entity_ptr.deref()`. -/
structure CompValue where
  entityAt : Nat → Entity

/-- Modelled from the spec (§3 "Relationship accessor"): the two-variant
type-erased accessor.  Its definition is not under `src/` (only its uses
are), so the variants follow the spec's words: `Relationship` carries the
entity field byte offset and the linked-spawn flag; `RelationshipTarget`
carries the iteration function over the component's base pointer. -/
inductive RelationshipAccessor where
  | Relationship (entity_field_offset : Nat) (linked_spawn : Bool)
  | RelationshipTarget (iter : CompValue → List Entity) (linked_spawn : Bool)

/-- One component kind carried by an entity: its storage class and value. -/
structure StoredComponent where
  storage : StorageType
  value : CompValue

/-- The observable state of one live entity: its archetype, i.e. the list of
component kinds it has, with the stored value of each.  This fuses
`EntityLocation`, `Archetype`, `Table` and `ComponentSparseSet` of the
substrate: `contains` is a lookup, and both the dense and the sparse fetch
of a contained component return its stored value. -/
structure EntityInfo where
  components : List (ComponentId × StoredComponent)

/-- Whether the entity's archetype contains a component
(`Archetype::contains`). -/
def EntityInfo.contains (info : EntityInfo) (c : ComponentId) : Bool :=
  (info.components.lookup c).isSome

/-- Storage-class of a contained component
(`Archetype::get_storage_type`). -/
def EntityInfo.get_storage_type (info : EntityInfo) (c : ComponentId) :
    Option StorageType :=
  (info.components.lookup c).map (·.storage)

/-- Fetch the value of a contained component; models both
`table.get_component(id, row)` and `sparse_set.get(entity)`. -/
def EntityInfo.getComponent (info : EntityInfo) (c : ComponentId) :
    Option CompValue :=
  (info.components.lookup c).map (·.value)

/-- The world substrate as the query core consumes it
(`UnsafeWorldCell`): `entities().get` yields the entity's observable state,
or `none` for a stale or never-allocated entity. -/
structure World where
  entities : Entity → Option EntityInfo

/-! ## Filtered access

Modelled from the spec: `FilteredAccess` (§3, §4.2) belongs to the external
substrate and its source file is not under `src/`; the model follows the
spec's words.  The access part is a read/write/archetypal map over component
ids with a distinguished `read_all` state; the filter part is a disjunction
of conjunctions of with/without constraints. -/

/-- Modelled from the spec: the read/write/archetypal access map (§4.2). -/
structure Access where
  reads : List ComponentId
  writes : List ComponentId
  archetypal : List ComponentId
  read_all : Bool

/-- Modelled from the spec: one conjunction of with/without constraints. -/
structure AccessFilters where
  withIds : List ComponentId
  withoutIds : List ComponentId

/-- Modelled from the spec: a `FilteredAccess` pairs the access map with an
OR-of-AND list of filter sets. -/
structure FilteredAccess where
  access : Access
  filter_sets : List AccessFilters

/-- `ComponentAccessKind` as matched by `QueryElement::matches`. -/
inductive ComponentAccessKind where
  | Exclusive (id : ComponentId)
  | Shared (id : ComponentId)
  | Archetypal (id : ComponentId)
  deriving DecidableEq, Repr

/-- The component id carried by an access kind (the source matches the three
variants and extracts the id). -/
def ComponentAccessKind.componentId : ComponentAccessKind → ComponentId
  | .Exclusive id => id
  | .Shared id => id
  | .Archetypal id => id

/-- Modelled from the spec: `try_iter_component_access` enumerates the
concrete component accesses, and fails (`Unbounded`, here `none`) exactly
when the access has `read_all` (§4.2). -/
def Access.try_iter_component_access (a : Access) :
    Option (List ComponentAccessKind) :=
  if a.read_all then none
  else some (a.writes.map .Exclusive ++ a.reads.map .Shared ++
    a.archetypal.map .Archetypal)

/-- Modelled from the spec: `has_read_all_components` (§4.2). -/
def Access.has_read_all_components (a : Access) : Bool := a.read_all

/-- Modelled from the spec: extending one access map with another unions the
component sets (AND-combine, §4.2). -/
def Access.extend (a b : Access) : Access :=
  { reads := a.reads ++ b.reads
    writes := a.writes ++ b.writes
    archetypal := a.archetypal ++ b.archetypal
    read_all := a.read_all || b.read_all }

/-- Modelled from the spec: AND of two filter conjunctions. -/
def AccessFilters.and (f g : AccessFilters) : AccessFilters :=
  { withIds := f.withIds ++ g.withIds
    withoutIds := f.withoutIds ++ g.withoutIds }

/-- Modelled from the spec: the matches-everything constant — empty access,
a single empty filter conjunction (§3, §4.2). -/
def FilteredAccess.matches_everything : FilteredAccess :=
  { access := { reads := [], writes := [], archetypal := [], read_all := false }
    filter_sets := [{ withIds := [], withoutIds := [] }] }

/-- Modelled from the spec: `extend` AND-combines two filtered accesses —
the required accesses union and the filter sets distribute (§4.2). -/
def FilteredAccess.extend (a b : FilteredAccess) : FilteredAccess :=
  { access := a.access.extend b.access
    filter_sets :=
      (a.filter_sets.map (fun f => b.filter_sets.map (fun g => f.and g))).flatten }

/-- Modelled from the spec: `add_component_read` (§4.2). -/
def FilteredAccess.add_component_read (a : FilteredAccess) (id : ComponentId) :
    FilteredAccess :=
  { a with access := { a.access with reads := a.access.reads ++ [id] } }

/-- Modelled from the spec: `add_component_write` (§4.2). -/
def FilteredAccess.add_component_write (a : FilteredAccess) (id : ComponentId) :
    FilteredAccess :=
  { a with access := { a.access with writes := a.access.writes ++ [id] } }

/-! ## Query plan data model (`plan.rs`) -/

/-- `QueryRelationship`: a directed edge between two terms via a relationship
component.  The `accessor` field is required by `get_related_entities`
(which reads `self.accessor`) and is supplied by every call site of
`add_relationship`. -/
structure QueryRelationship where
  source_term : Nat
  target_term : Nat
  relationship_component : ComponentId
  accessor : RelationshipAccessor

/-- `QueryElement`: one source/term in the plan.  The `relationships` field
is the per-term edge list pushed to by `QueryPlan::add_relationship`. -/
structure QueryElement where
  access : FilteredAccess
  term_index : Nat
  relationships : List QueryRelationship

/-- `QueryElement::new`: a fresh term with the given access and no edges. -/
def QueryElement.new (term_index : Nat) (access : FilteredAccess) :
    QueryElement :=
  { access := access, term_index := term_index, relationships := [] }

/-- `QueryElement::matches`: an entity matches a term iff it is live and its
archetype contains every component enumerated from the term's access; when
the enumeration fails (inverted access such as `read_all`) the source
returns `false`. -/
def QueryElement.matches (t : QueryElement) (entity : Entity) (world : World) :
    Bool :=
  match world.entities entity with
  | none => false
  | some info =>
    match t.access.access.try_iter_component_access with
    | some comps => comps.all (fun k => info.contains k.componentId)
    | none => false

/-- `QueryRelationship::get_related_entities`: candidates for the target
term from a source entity.  A stale source or a source whose archetype lacks
the relationship component yields no candidates.  The dense and sparse
storage branches both fetch the stored component value; a `Relationship`
accessor reads the single entity at its byte offset, a `RelationshipTarget`
accessor iterates the collection. -/
def QueryRelationship.get_related_entities (r : QueryRelationship)
    (source_entity : Entity) (world : World) : List Entity :=
  match world.entities source_entity with
  | none => []
  | some info =>
    if !info.contains r.relationship_component then []
    else
      match info.getComponent r.relationship_component with
      | none => []
      | some v =>
        match r.accessor with
        | .Relationship entity_field_offset _ => [v.entityAt entity_field_offset]
        | .RelationshipTarget iter _ => iter v

/-- `QueryPlanError`: the source with the given index does not exist. -/
inductive QueryPlanError where
  | QuerySourceNotFound (idx : Nat)
  deriving DecidableEq, Repr

/-- `QueryPlan`: terms, edges and the index of the main term. -/
structure QueryPlan where
  terms : List QueryElement
  relationships : List QueryRelationship
  main_term_index : Nat

/-- `QueryPlan::new`. -/
def QueryPlan.new (main_term_index : Nat) : QueryPlan :=
  { terms := [], relationships := [], main_term_index := main_term_index }

/-- `QueryPlan::default`. -/
def QueryPlan.default : QueryPlan := QueryPlan.new 0

/-- `QueryPlan::add_term`: append a term, returning its index. -/
def QueryPlan.add_term (p : QueryPlan) (access : FilteredAccess) :
    QueryPlan × Nat :=
  let term_index := p.terms.length
  ({ p with terms := p.terms ++ [QueryElement.new term_index access] },
    term_index)

/-- `QueryPlan::add_relationship`: validates that the source term exists
(`terms.get_mut(source)`), failing with `QuerySourceNotFound` otherwise, and
pushes the edge onto that term's edge list.  The target index is not
inspected. -/
def QueryPlan.add_relationship (p : QueryPlan) (source target : Nat)
    (relationship_component : ComponentId) (accessor : RelationshipAccessor) :
    Except QueryPlanError QueryPlan :=
  match p.terms[source]? with
  | none => .error (.QuerySourceNotFound source)
  | some term =>
    .ok { p with
      terms := p.terms.set source
        { term with relationships := term.relationships ++
          [{ source_term := source, target_term := target,
             relationship_component := relationship_component,
             accessor := accessor }] } }

/-- `QueryPlan::combined_access`: fold `extend` over the terms' accesses
starting from `matches_everything`. -/
def QueryPlan.combined_access (p : QueryPlan) : FilteredAccess :=
  p.terms.foldl (fun combined term => combined.extend term.access)
    FilteredAccess.matches_everything

/-! ## The executor (`QueryPlan::execute` / `resolve_term`)

The Rust executor mutates a `partial_match : Vec<Option<Entity>>` and a
`results` vector; the embedding threads both explicitly.  A Rust panic
(slice index out of bounds, `.unwrap()` of `None`) is the `panicked`
result; `fuelOut` is the artifact of the fuel needed to make the (possibly
non-terminating) recursion total in Lean. -/

/-- Result of running an executor fragment. -/
inductive ExecResult (α : Type) where
  | ok (value : α)
  | panicked
  | fuelOut
  deriving Repr

/-- The partial assignment, one optional entity per term. -/
abbrev Assignment := List (Option Entity)

/-- The inner candidate loop of `resolve_term`: for each candidate target
entity of one relationship, check the target term's match, save the target
slot, bind it, recurse (through `recur`, the fuel-smaller `resolve_term`),
and restore the slot.  `plan.terms[...]` and `partial_match[...]` indexing
panics are modelled explicitly. -/
def resolveCands (p : QueryPlan) (w : World)
    (recur : Nat → Assignment → ExecResult (Assignment × List (List Entity)))
    (rel : QueryRelationship) :
    Assignment → List Entity → ExecResult (Assignment × List (List Entity))
  | pm, [] => .ok (pm, [])
  | pm, target_entity :: rest =>
    match p.terms[rel.target_term]? with
    | none => .panicked
    | some targetTerm =>
      if targetTerm.matches target_entity w then
        match pm[rel.target_term]? with
        | none => .panicked
        | some previous =>
          match recur rel.target_term (pm.set rel.target_term (some target_entity)) with
          | .ok (pm1, res1) =>
            match resolveCands p w recur rel (pm1.set rel.target_term previous) rest with
            | .ok (pm2, res2) => .ok (pm2, res1 ++ res2)
            | .panicked => .panicked
            | .fuelOut => .fuelOut
          | .panicked => .panicked
          | .fuelOut => .fuelOut
      else resolveCands p w recur rel pm rest

/-- The outer loop of `resolve_term` over the current term's outgoing
relationships: read the (required bound) source entity — `unwrap` panics
when the slot is absent or unbound — compute the candidates through the
accessor and run the candidate loop. -/
def resolveRels (p : QueryPlan) (w : World)
    (recur : Nat → Assignment → ExecResult (Assignment × List (List Entity)))
    (term_index : Nat) :
    Assignment → List QueryRelationship → ExecResult (Assignment × List (List Entity))
  | pm, [] => .ok (pm, [])
  | pm, rel :: rest =>
    match pm[term_index]? with
    | none => .panicked
    | some none => .panicked
    | some (some source_entity) =>
      match resolveCands p w recur rel pm
          (rel.get_related_entities source_entity w) with
      | .ok (pm1, res1) =>
        match resolveRels p w recur term_index pm1 rest with
        | .ok (pm2, res2) => .ok (pm2, res1 ++ res2)
        | .panicked => .panicked
        | .fuelOut => .fuelOut
      | .panicked => .panicked
      | .fuelOut => .fuelOut

/-- `QueryPlan::resolve_term`, fuel-indexed.  A term with no outgoing
relationships is a leaf: when every slot of the assignment is bound, a copy
is emitted (the unwraps are guarded by the all-bound check). -/
def resolveTerm (p : QueryPlan) (w : World) :
    Nat → Nat → Assignment → ExecResult (Assignment × List (List Entity))
  | 0, _, _ => .fuelOut
  | fuel + 1, term_index, pm =>
    let outgoing := p.relationships.filter (fun r => r.source_term == term_index)
    if outgoing.isEmpty then
      if pm.all Option.isSome then .ok (pm, [pm.filterMap id])
      else .ok (pm, [])
    else resolveRels p w (resolveTerm p w fuel) term_index pm outgoing

/-- `QueryPlan::execute`: initialize the assignment with only the main slot
bound — `partial_match[main] = ...` and `terms[main]` panic when the main
index is out of range — reject a main entity that does not match its term,
and run the recursion from the main term. -/
def execute (p : QueryPlan) (w : World) (fuel : Nat) (main_entity : Entity) :
    ExecResult (List (List Entity)) :=
  let pm0 : Assignment := List.replicate p.terms.length none
  if p.main_term_index < pm0.length then
    let pm := pm0.set p.main_term_index (some main_entity)
    match p.terms[p.main_term_index]? with
    | none => .panicked
    | some mainTerm =>
      if mainTerm.matches main_entity w then
        match resolveTerm p w fuel p.main_term_index pm with
        | .ok (_, results) => .ok results
        | .panicked => .panicked
        | .fuelOut => .fuelOut
      else .ok []
  else .panicked

/-! ## The specified executor semantics

The spec's entry-point contract (§4.5) is declarative: `execute` returns
every tuple binding the main slot to the main entity in which every term
matches and every edge relates.  The following decidable predicate states
that contract for one tuple; it is the comparison point for the refinement
claims and deliberately follows the spec's words, not the code. -/

/-- One edge holds of a tuple: the accessor applied to the tuple's source
entity yields a candidate list containing the tuple's target entity. -/
def edgeSatisfied (r : QueryRelationship) (tuple : List Entity) (w : World) :
    Bool :=
  match tuple[r.source_term]?, tuple[r.target_term]? with
  | some s, some t => (r.get_related_entities s w).contains t
  | _, _ => false

/-- The spec's declarative membership condition for a result tuple of
`execute(plan, main_entity, world)` (§4.5 entry point). -/
def specTuple (p : QueryPlan) (w : World) (main_entity : Entity)
    (tuple : List Entity) : Bool :=
  tuple.length == p.terms.length &&
  tuple[p.main_term_index]? == some main_entity &&
  p.terms.all (fun t =>
    match tuple[t.term_index]? with
    | some e => t.matches e w
    | none => false) &&
  p.relationships.all (fun r => edgeSatisfied r tuple w)

/-! ## Builders -/

/-- `QueryPlanBuilder`: the low-level builder accumulates a plan (the world
handle plays no role in the embedded operations). -/
structure QueryPlanBuilder where
  plan : QueryPlan

/-- `QueryPlanBuilder::new`. -/
def QueryPlanBuilder.new : QueryPlanBuilder := { plan := QueryPlan.default }

/-- `QueryPlanBuilder::add_term` (as exercised by every call site): append a
term to the accumulated plan and return its index. -/
def QueryPlanBuilder.add_term (b : QueryPlanBuilder) (access : FilteredAccess) :
    QueryPlanBuilder × Nat :=
  let (p, i) := b.plan.add_term access
  ({ plan := p }, i)

/-- `QueryPlanBuilder::build`: `fn build(self) -> QueryPlan { self.plan }` —
it takes no main index, performs no validation and cannot fail. -/
def QueryPlanBuilder.build (b : QueryPlanBuilder) : QueryPlan := b.plan

/-- The registry's view of a component kind as the typed builder can consult
it: the id `register_component` returns, the registered relationship
accessor of the kind (`info(id).accessor?`, `none` when the kind is not a
relationship) and the linked-spawn constant of its target type. -/
structure RegisteredKind where
  id : ComponentId
  registeredAccessor : Option RelationshipAccessor
  linkedSpawn : Bool

/-- `TypedQueryPlanBuilder`. -/
structure TypedQueryPlanBuilder where
  builder : QueryPlanBuilder

/-- `TypedQueryPlanBuilder::related_to::<R>(src, tgt)`: registers `R`,
builds the accessor with `entity_field_offset: 0` hard-coded (the source
ignores the registry entry for `R`; its own comment marks this as a TODO)
and pushes the edge through the low-level `add_relationship`, discarding
its `Result` (so an error leaves the builder unchanged and is not
surfaced). -/
def TypedQueryPlanBuilder.related_to (b : TypedQueryPlanBuilder)
    (R : RegisteredKind) (source_term target_term : Nat) :
    TypedQueryPlanBuilder :=
  let component_id := R.id
  let accessor := RelationshipAccessor.Relationship 0 R.linkedSpawn
  match b.builder.plan.add_relationship source_term target_term component_id
      accessor with
  | .ok p => { builder := { plan := p } }
  | .error _ => b

/-! ## Component / resource declaration surface
(`macros/src/component.rs`, `parse_component_attrs`)

The macro walks the nested meta items of the `#[component(...)]` attribute.
The embedding abstracts `syn` values to the three shapes the code
distinguishes — a `key = literal` pair, any other meta item (whose path the
error message reports), and a bare literal — and represents each
descriptive error as a constructor carrying exactly what the message
names. -/

/-- A literal in an attribute, as the macro inspects it. -/
inductive MetaLit where
  | litStr (s : String)
  | litBool (b : Bool)
  | litOther
  deriving DecidableEq, Repr

/-- One nested meta item of the attribute. -/
inductive NestedMeta where
  | nameValue (path : String) (lit : MetaLit)
  | otherMeta (path : String)
  | bareLit
  deriving DecidableEq, Repr

/-- Storage classes the declaration surface can produce (`StorageTy`). -/
inductive StorageTy where
  | Table
  | SparseSet
  deriving DecidableEq, Repr

/-- Parsed component attributes (`ComponentAttrs`). -/
structure ComponentAttrs where
  change_detection_enabled : Bool
  storage : StorageTy
  deriving DecidableEq, Repr

/-- The declaration errors, each carrying what its message names. -/
inductive AttrError where
  | invalidStorage (value : String)
  | storageNotAString
  | changeDetectionNotABool
  | unknownComponentAttribute (path : String)
  | unexpectedLiteral
  deriving DecidableEq, Repr

/-- The loop body of `parse_component_attrs` over the meta items, starting
from the defaults (`change_detection_enabled: true, storage: Table`).  The
`storage` key accepts exactly the strings `"Table"` and `"SparseSet"`; any
other string is `invalidStorage` naming the value; `change_detection`
accepts exactly a boolean literal; any other name-value or meta item is
`unknownComponentAttribute` naming its path; a bare literal is
`unexpectedLiteral`. -/
def parseComponentAttrsFrom : List NestedMeta → ComponentAttrs →
    Except AttrError ComponentAttrs
  | [], attrs => .ok attrs
  | m :: rest, attrs =>
    match m with
    | .nameValue path lit =>
      if path = "storage" then
        match lit with
        | .litStr s =>
          if s = "Table" then
            parseComponentAttrsFrom rest { attrs with storage := .Table }
          else if s = "SparseSet" then
            parseComponentAttrsFrom rest { attrs with storage := .SparseSet }
          else .error (.invalidStorage s)
        | _ => .error .storageNotAString
      else if path = "change_detection" then
        match lit with
        | .litBool b =>
          parseComponentAttrsFrom rest
            { attrs with change_detection_enabled := b }
        | _ => .error .changeDetectionNotABool
      else .error (.unknownComponentAttribute path)
    | .otherMeta path => .error (.unknownComponentAttribute path)
    | .bareLit => .error .unexpectedLiteral

/-- `parse_component_attrs`. -/
def parse_component_attrs (metas : List NestedMeta) :
    Except AttrError ComponentAttrs :=
  parseComponentAttrsFrom metas
    { change_detection_enabled := true, storage := .Table }

/-! ## Concrete fixtures

Worlds and plans used to evaluate the executor on the spec's scenarios.
Component values are written through `cvTo` (a relationship component whose
entity field holds the given target at every offset) and `markerValue` (a
payload-free marker). -/

/-- An access requiring nothing (the typed builder's `term()`). -/
def accEmpty : FilteredAccess := FilteredAccess.matches_everything

/-- An access reading one component (the typed builder's `with::<T>()`). -/
def accRead (c : ComponentId) : FilteredAccess :=
  FilteredAccess.matches_everything.add_component_read c

/-- The `Relationship` accessor with entity field offset 0. -/
def relAcc0 : RelationshipAccessor := RelationshipAccessor.Relationship 0 true

/-- A component value whose entity field holds `e`. -/
def cvTo (e : Entity) : CompValue := { entityAt := fun _ => e }

/-- A marker component value (no meaningful entity field). -/
def markerValue : CompValue := { entityAt := fun _ => 0 }

/-- A dense relationship component pointing at `e`. -/
def storedRel (e : Entity) : StoredComponent :=
  { storage := .Table, value := cvTo e }

/-- A dense marker component. -/
def storedMarker : StoredComponent := { storage := .Table, value := markerValue }

/-- Parent-child chain world: entity 1 carries marker 5 and relationship 9
pointing at entity 2; entity 2 is live and empty. -/
def chainWorld : World :=
  { entities := fun e =>
      if e = 1 then some { components := [(5, storedMarker), (9, storedRel 2)] }
      else if e = 2 then some { components := [] }
      else none }

/-- Chain plan: term 0 reads component 5, term 1 requires nothing, one edge
`0 → 1` via relationship component 9, main term 0. -/
def chainPlan : QueryPlan :=
  { terms := [QueryElement.new 0 (accRead 5), QueryElement.new 1 accEmpty]
    relationships := [{ source_term := 0, target_term := 1,
                        relationship_component := 9, accessor := relAcc0 }]
    main_term_index := 0 }

/-- The multi-hop world of the spec's scenario 3: ship `s = 1` with
`SpaceShip = 1`, `BelongsToFaction = 2` pointing at faction `fa = 2` and
`DockedTo = 3` pointing at planet `p = 4`; `fa` with `FactionTag = 4` and
`AlliedWith = 6` pointing at faction `fb = 3`; `fb` with `FactionTag`;
`p` with `Planet = 5` and `RuledBy = 7` pointing at `fb`. -/
def mhWorld : World :=
  { entities := fun e =>
      if e = 1 then
        some { components := [(1, storedMarker), (2, storedRel 2), (3, storedRel 4)] }
      else if e = 2 then
        some { components := [(4, storedMarker), (6, storedRel 3)] }
      else if e = 3 then some { components := [(4, storedMarker)] }
      else if e = 4 then
        some { components := [(5, storedMarker), (7, storedRel 3)] }
      else none }

/-- The multi-hop plan: terms `{s, sf, p, pf}` reading `SpaceShip`,
`FactionTag`, `Planet`, `FactionTag`; edges `BelongsToFaction: s → sf`,
`DockedTo: s → p`, `RuledBy: p → pf`, `AlliedWith: sf → pf`; main `s`. -/
def mhPlan : QueryPlan :=
  { terms := [QueryElement.new 0 (accRead 1), QueryElement.new 1 (accRead 4),
              QueryElement.new 2 (accRead 5), QueryElement.new 3 (accRead 4)]
    relationships :=
      [{ source_term := 0, target_term := 1, relationship_component := 2, accessor := relAcc0 },
       { source_term := 0, target_term := 2, relationship_component := 3, accessor := relAcc0 },
       { source_term := 2, target_term := 3, relationship_component := 7, accessor := relAcc0 },
       { source_term := 1, target_term := 3, relationship_component := 6, accessor := relAcc0 }]
    main_term_index := 0 }

/-- A world exercising a cycle in the edge graph: `1 -[10]-> 2`,
`2 -[11]-> 3`, `3 -[12]-> 4`; entity 3 lacks component 10 and entity 1
lacks component 12; entity 4 is live and empty. -/
def cycWorld : World :=
  { entities := fun e =>
      if e = 1 then some { components := [(10, storedRel 2)] }
      else if e = 2 then some { components := [(11, storedRel 3)] }
      else if e = 3 then some { components := [(12, storedRel 4)] }
      else if e = 4 then some { components := [] }
      else none }

/-- A plan whose edge graph has a cycle back into the main term: terms
0, 1, 2 requiring nothing; edges `0 → 1` via 10, `0 → 2` via 12 and
`1 → 0` via 11; main term 0. -/
def cycPlan : QueryPlan :=
  { terms := [QueryElement.new 0 accEmpty, QueryElement.new 1 accEmpty,
              QueryElement.new 2 accEmpty]
    relationships :=
      [{ source_term := 0, target_term := 1, relationship_component := 10, accessor := relAcc0 },
       { source_term := 0, target_term := 2, relationship_component := 12, accessor := relAcc0 },
       { source_term := 1, target_term := 0, relationship_component := 11, accessor := relAcc0 }]
    main_term_index := 0 }

/-- A term whose access has `read_all` (so component enumeration is
`Unbounded`). -/
def readAllTerm : QueryElement :=
  QueryElement.new 0
    { access := { reads := [], writes := [], archetypal := [], read_all := true }
      filter_sets := [{ withIds := [], withoutIds := [] }] }

/-- A one-term plan used for builder validation checks. -/
def oneTermPlan : QueryPlan :=
  { terms := [QueryElement.new 0 accEmpty], relationships := [],
    main_term_index := 0 }

/-- A typed builder already holding two terms. -/
def twoTermTypedBuilder : TypedQueryPlanBuilder :=
  { builder := { plan :=
      { terms := [QueryElement.new 0 accEmpty, QueryElement.new 1 accEmpty]
        relationships := [], main_term_index := 0 } } }

/-- A registered relationship kind whose registry accessor has entity field
offset 8 (a relationship whose `Entity` is not the first field). -/
def kindOffset8 : RegisteredKind :=
  { id := 9, registeredAccessor := some (RelationshipAccessor.Relationship 8 true)
    linkedSpawn := true }

/-- A registered kind with no relationship accessor in the registry. -/
def kindNotRel : RegisteredKind :=
  { id := 9, registeredAccessor := none, linkedSpawn := true }

/-- `Except` result is a success. -/
def exceptIsOk : Except ε α → Bool
  | .ok _ => true
  | .error _ => false

/-- A plan is well formed when its main index and the two indices of every
edge are in range of the term vector (the data-model invariant of §3 the
builder is supposed to establish). -/
def QueryPlan.wellFormed (p : QueryPlan) : Prop :=
  p.main_term_index < p.terms.length ∧
  ∀ r ∈ p.relationships,
    r.source_term < p.terms.length ∧ r.target_term < p.terms.length

/-! ## Helper lemmas -/

theorem list_set_of_get? {α : Type} :
    ∀ (l : List α) (i : Nat) (a : α), l[i]? = some a → l.set i a = l
  | [], i, a, h => by cases i <;> simp at h
  | x :: xs, 0, a, h => by
    simp at h
    simp [List.set, h]
  | x :: xs, i + 1, a, h => by
    simp at h
    simp [List.set, list_set_of_get? xs i a h]

theorem list_get?_set_lt {α : Type} :
    ∀ (l : List α) (i : Nat) (a : α), i < l.length →
      (l.set i a)[i]? = some a
  | [], i, a, h => by simp at h
  | x :: xs, 0, a, _ => by simp
  | x :: xs, i + 1, a, h => by
    simp [List.set]
    exact list_get?_set_lt xs i a (by simpa using h)

/-- The candidate loop leaves the assignment it was given unchanged in every
successful outcome, provided the recursive continuation does. -/
theorem resolveCands_preserves (p : QueryPlan) (w : World)
    (recur : Nat → Assignment → ExecResult (Assignment × List (List Entity)))
    (hrec : ∀ ti pm pm' res, recur ti pm = .ok (pm', res) → pm' = pm)
    (rel : QueryRelationship) :
    ∀ (cands : List Entity) (pm pm' : Assignment) (res : List (List Entity)),
      resolveCands p w recur rel pm cands = .ok (pm', res) → pm' = pm := by
  intro cands
  induction cands with
  | nil =>
    intro pm pm' res h
    rw [resolveCands] at h
    cases h
    rfl
  | cons tgt rest ih =>
    intro pm pm' res h
    rw [resolveCands] at h
    split at h
    · exact ExecResult.noConfusion h
    next targetTerm _ =>
      split at h
      · split at h
        · exact ExecResult.noConfusion h
        next previous hprev =>
          split at h
          next pm1 res1 hrec1 =>
            split at h
            next pm2 res2 hrest =>
              simp only [ExecResult.ok.injEq, Prod.mk.injEq] at h
              obtain ⟨hpm, -⟩ := h
              subst hpm
              have h1 : pm1 = pm.set rel.target_term (some tgt) :=
                hrec _ _ _ _ hrec1
              have h2 : pm2 = pm1.set rel.target_term previous :=
                ih _ _ _ hrest
              rw [h2, h1, List.set_set, list_set_of_get? pm _ _ hprev]
            · exact ExecResult.noConfusion h
            · exact ExecResult.noConfusion h
          · exact ExecResult.noConfusion h
          · exact ExecResult.noConfusion h
      · exact ih _ _ _ h

/-- The relationship loop leaves the assignment unchanged in every
successful outcome, provided the recursive continuation does. -/
theorem resolveRels_preserves (p : QueryPlan) (w : World)
    (recur : Nat → Assignment → ExecResult (Assignment × List (List Entity)))
    (hrec : ∀ ti pm pm' res, recur ti pm = .ok (pm', res) → pm' = pm)
    (term_index : Nat) :
    ∀ (rels : List QueryRelationship) (pm pm' : Assignment)
      (res : List (List Entity)),
      resolveRels p w recur term_index pm rels = .ok (pm', res) → pm' = pm := by
  intro rels
  induction rels with
  | nil =>
    intro pm pm' res h
    rw [resolveRels] at h
    cases h
    rfl
  | cons rel rest ih =>
    intro pm pm' res h
    rw [resolveRels] at h
    split at h
    · exact ExecResult.noConfusion h
    · exact ExecResult.noConfusion h
    next source_entity _ =>
      split at h
      next pm1 res1 hcands =>
        split at h
        next pm2 res2 hrest =>
          simp only [ExecResult.ok.injEq, Prod.mk.injEq] at h
          obtain ⟨hpm, -⟩ := h
          subst hpm
          have h1 : pm1 = pm :=
            resolveCands_preserves p w recur hrec rel _ _ _ _ hcands
          have h2 : pm2 = pm1 := ih _ _ _ hrest
          rw [h2, h1]
        · exact ExecResult.noConfusion h
        · exact ExecResult.noConfusion h
      · exact ExecResult.noConfusion h
      · exact ExecResult.noConfusion h

/-- Every successful `resolve_term` call returns the assignment it was
given (the backtracking restore is exact). -/
theorem resolveTerm_preserves (p : QueryPlan) (w : World) :
    ∀ (fuel ti : Nat) (pm pm' : Assignment) (res : List (List Entity)),
      resolveTerm p w fuel ti pm = .ok (pm', res) → pm' = pm := by
  intro fuel
  induction fuel with
  | zero =>
    intro ti pm pm' res h
    exact ExecResult.noConfusion h
  | succ fuel ih =>
    intro ti pm pm' res h
    rw [resolveTerm] at h
    split at h
    · split at h
      · cases h; rfl
      · cases h; rfl
    · exact resolveRels_preserves p w (resolveTerm p w fuel) ih ti _ _ _ _ h

/-- The candidate loop cannot panic when the edge's target index is in
range, the assignment has one slot per term, and the recursive continuation
is assignment-preserving and panic-free on in-range bound calls. -/
theorem resolveCands_no_panic (p : QueryPlan) (w : World)
    (recur : Nat → Assignment → ExecResult (Assignment × List (List Entity)))
    (hrecF : ∀ ti pm pm' res, recur ti pm = .ok (pm', res) → pm' = pm)
    (hrecNP : ∀ ti pm, pm.length = p.terms.length →
      ti < p.terms.length → (∃ x, pm[ti]? = some (some x)) →
      recur ti pm ≠ .panicked)
    (rel : QueryRelationship) (htgt : rel.target_term < p.terms.length) :
    ∀ (cands : List Entity) (pm : Assignment),
      pm.length = p.terms.length →
      resolveCands p w recur rel pm cands ≠ .panicked := by
  intro cands
  induction cands with
  | nil =>
    intro pm _ heq
    rw [resolveCands] at heq
    exact ExecResult.noConfusion heq
  | cons tgt rest ih =>
    intro pm hlen heq
    rw [resolveCands] at heq
    split at heq
    next hnone =>
      rw [List.getElem?_eq_getElem htgt] at hnone
      exact Option.noConfusion hnone
    next targetTerm _ =>
      split at heq
      · split at heq
        next hnone =>
          rw [List.getElem?_eq_getElem (hlen ▸ htgt)] at hnone
          exact Option.noConfusion hnone
        next previous hprev =>
          split at heq
          next pm1 res1 hrec1 =>
            split at heq
            · exact ExecResult.noConfusion heq
            next hrest =>
              have h1 : pm1 = pm.set rel.target_term (some tgt) :=
                hrecF _ _ _ _ hrec1
              rw [h1, List.set_set, list_set_of_get? pm _ _ hprev] at hrest
              exact ih pm hlen hrest
            · exact ExecResult.noConfusion heq
          next hp =>
            refine hrecNP rel.target_term (pm.set rel.target_term (some tgt))
              ?_ htgt ?_ hp
            · rw [List.length_set]; exact hlen
            · exact ⟨tgt, list_get?_set_lt pm _ _ (hlen ▸ htgt)⟩
          · exact ExecResult.noConfusion heq
      · exact ih pm hlen heq

/-- The relationship loop cannot panic when every edge target is in range,
the current term's slot is bound, the assignment has one slot per term, and
the recursive continuation is well behaved. -/
theorem resolveRels_no_panic (p : QueryPlan) (w : World)
    (recur : Nat → Assignment → ExecResult (Assignment × List (List Entity)))
    (hrecF : ∀ ti pm pm' res, recur ti pm = .ok (pm', res) → pm' = pm)
    (hrecNP : ∀ ti pm, pm.length = p.terms.length →
      ti < p.terms.length → (∃ x, pm[ti]? = some (some x)) →
      recur ti pm ≠ .panicked)
    (term_index : Nat) :
    ∀ (rels : List QueryRelationship) (pm : Assignment),
      (∀ r ∈ rels, r.target_term < p.terms.length) →
      pm.length = p.terms.length →
      (∃ x, pm[term_index]? = some (some x)) →
      resolveRels p w recur term_index pm rels ≠ .panicked := by
  intro rels
  induction rels with
  | nil =>
    intro pm _ _ _ heq
    rw [resolveRels] at heq
    exact ExecResult.noConfusion heq
  | cons rel rest ih =>
    intro pm htgts hlen hbound heq
    obtain ⟨x, hx⟩ := hbound
    rw [resolveRels] at heq
    split at heq
    next hnone => rw [hx] at hnone; exact Option.noConfusion hnone
    next hsn =>
      rw [hx] at hsn
      exact Option.noConfusion (Option.some.inj hsn)
    next source_entity hsome =>
      split at heq
      next pm1 res1 hcands =>
        split at heq
        · exact ExecResult.noConfusion heq
        next hrest =>
          have h1 : pm1 = pm :=
            resolveCands_preserves p w recur hrecF rel _ _ _ _ hcands
          rw [h1] at hrest
          exact ih pm (fun r hr => htgts r (List.mem_cons_of_mem _ hr)) hlen
            ⟨x, hx⟩ hrest
        · exact ExecResult.noConfusion heq
      next hp =>
        exact resolveCands_no_panic p w recur hrecF hrecNP rel
          (htgts rel (List.mem_cons_self _ _)) _ pm hlen hp
      · exact ExecResult.noConfusion heq

/-- On a well-formed plan, `resolve_term` cannot panic from any assignment
with one slot per term whose current slot is bound. -/
theorem resolveTerm_no_panic (p : QueryPlan) (w : World)
    (hwf : p.wellFormed) :
    ∀ (fuel ti : Nat) (pm : Assignment),
      pm.length = p.terms.length →
      (∃ x, pm[ti]? = some (some x)) →
      resolveTerm p w fuel ti pm ≠ .panicked := by
  intro fuel
  induction fuel with
  | zero =>
    intro ti pm _ _ heq
    rw [resolveTerm] at heq
    exact ExecResult.noConfusion heq
  | succ fuel ih =>
    intro ti pm hlen hbound heq
    rw [resolveTerm] at heq
    split at heq
    · split at heq <;> exact ExecResult.noConfusion heq
    · exact resolveRels_no_panic p w (resolveTerm p w fuel)
        (resolveTerm_preserves p w fuel)
        (fun ti' pm' hl _ hb => ih ti' pm' hl hb) ti _ pm
        (fun r hr => (hwf.2 r (List.mem_of_mem_filter hr)).2) hlen hbound heq

/-! ## Combined-access fold lemmas -/

/-- Extending preserves membership in a component list selected by a
projection that distributes over `extend` as append. -/
theorem mem_sel_foldl (sel : Access → List ComponentId)
    (hsel : ∀ a b : FilteredAccess,
      sel (a.extend b).access = sel a.access ++ sel b.access) :
    ∀ (l : List QueryElement) (acc : FilteredAccess) (c : ComponentId),
      c ∈ sel acc.access →
      c ∈ sel (l.foldl (fun a t => a.extend t.access) acc).access := by
  intro l
  induction l with
  | nil => intro acc c hc; exact hc
  | cons t rest ih =>
    intro acc c hc
    exact ih (acc.extend t.access) c
      (by rw [hsel]; exact List.mem_append_left _ hc)

/-- A component selected from any term of the list ends up selected from
the fold. -/
theorem mem_sel_foldl_of_mem (sel : Access → List ComponentId)
    (hsel : ∀ a b : FilteredAccess,
      sel (a.extend b).access = sel a.access ++ sel b.access) :
    ∀ (l : List QueryElement) (acc : FilteredAccess) (t : QueryElement),
      t ∈ l → ∀ c ∈ sel t.access.access,
      c ∈ sel (l.foldl (fun a u => a.extend u.access) acc).access := by
  intro l
  induction l with
  | nil => intro acc t ht; exact absurd ht (List.not_mem_nil t)
  | cons u rest ih =>
    intro acc t ht c hc
    rcases List.mem_cons.mp ht with h | h
    · subst h
      exact mem_sel_foldl sel hsel rest (acc.extend t.access) c
        (by rw [hsel]; exact List.mem_append_right _ hc)
    · exact ih (acc.extend u.access) t h c hc

/-! ## Claim theorems -/

/-- **C1.** The claim states that `execute` returns every tuple satisfying
the declarative contract and that on the multi-hop scenario (terms
`{s, sf, p, pf}`, edges `BelongsToFaction: s→sf`, `DockedTo: s→p`,
`RuledBy: p→pf`, `AlliedWith: sf→pf`) `execute(s)` yields exactly
`[(s, fa, p, fb)]`.  The code does not: each sibling edge's bindings are
restored before the next sibling edge is processed, so no leaf of the
recursion ever sees all four slots bound, and `execute(s)` yields the empty
sequence even though the tuple `(s, fa, p, fb) = (1, 2, 4, 3)` satisfies
the spec's membership condition. -/
theorem multi_hop_scenario_yields_empty :
    execute mhPlan mhWorld 20 1 = .ok [] ∧
    specTuple mhPlan mhWorld 1 [1, 2, 4, 3] = true :=
  ⟨rfl, rfl⟩

/-- **C2.** The claim states that every emitted tuple holds the main entity
in the main slot.  The code violates it: on `cycPlan` (an edge targeting
the already-bound main term) executing with main entity `1` emits the tuple
`[3, 2, 4]`, whose main slot holds `3 ≠ 1` — the candidate produced by the
edge `1 → 0` overwrote the main binding and the overwritten assignment was
emitted. -/
theorem main_slot_not_anchored :
    execute cycPlan cycWorld 10 1 = .ok [[3, 2, 4]] ∧
    [3, 2, 4][cycPlan.main_term_index]? = some 3 ∧ (3 : Entity) ≠ 1 :=
  ⟨rfl, rfl, by decide⟩

/-- **C3.** The claim states that a candidate for an already-bound target
term is accepted only when it equals the existing binding, and that no
emitted tuple contradicts an edge verified earlier on the same branch.  The
code performs no such check: it overwrites the binding, and the emitted
tuple `[3, 2, 4]` of the cyclic scenario violates the plan's first edge
(`0 → 1` via component 10), which had been verified for the original
binding `1 → 2` earlier on the same branch. -/
theorem emitted_tuple_contradicts_checked_edge :
    execute cycPlan cycWorld 10 1 = .ok [[3, 2, 4]] ∧
    cycPlan.relationships.map (fun r => edgeSatisfied r [3, 2, 4] cycWorld) =
      [false, true, true] :=
  ⟨rfl, rfl⟩

/-- **C4.** The claim states that a term whose access cannot enumerate
component ids (`try_iter_component_access` is `Unbounded` because of
`read_all`) matches every entity.  The code does the opposite: the `Err`
branch of `QueryElement::matches` returns `false`, so such a term matches
no entity at all. -/
theorem matches_rejects_unbounded_access (t : QueryElement) (e : Entity)
    (w : World) (h : t.access.access.read_all = true) :
    t.matches e w = false := by
  unfold QueryElement.matches Access.try_iter_component_access
  rw [h]
  cases w.entities e <;> simp

/-- Witness for **C4**: the concrete `read_all` term rejects the live
entity 1 of the chain world. -/
theorem matches_rejects_unbounded_access_witness :
    readAllTerm.matches 1 chainWorld = false ∧
    readAllTerm.access.access.read_all = true :=
  ⟨matches_rejects_unbounded_access readAllTerm 1 chainWorld rfl, rfl⟩

/-- **C5 (counterexample).** The claim says `execute` is total for every
plan.  A plan whose main term index is out of range of its (empty) term
vector makes `execute` panic at `partial_match[main] = Some(..)`. -/
theorem execute_panics_on_out_of_range_main :
    execute (QueryPlan.new 0) chainWorld 5 7 = .panicked :=
  rfl

/-- **C5 (amended).** On a well-formed plan (main index and all edge
indices in range) `execute` never panics for any world, fuel and entity;
a stale main entity yields the empty result; a stale source entity or a
source lacking the edge's relationship component contributes zero
candidates. -/
theorem execute_never_panics_on_well_formed (p : QueryPlan) (w : World)
    (fuel : Nat) (e : Entity) (hwf : p.wellFormed) :
    execute p w fuel e ≠ .panicked ∧
    (w.entities e = none → execute p w fuel e = .ok []) ∧
    (∀ (r : QueryRelationship) (src : Entity), w.entities src = none →
      r.get_related_entities src w = []) ∧
    (∀ (r : QueryRelationship) (src : Entity) (info : EntityInfo),
      w.entities src = some info →
      info.contains r.relationship_component = false →
      r.get_related_entities src w = []) := by
  refine ⟨?_, ?_, ?_, ?_⟩
  · intro heq
    simp only [execute, List.length_replicate] at heq
    split at heq
    · split at heq
      next hnone =>
        rw [List.getElem?_eq_getElem hwf.1] at hnone
        exact Option.noConfusion hnone
      next mainTerm hsome =>
        split at heq
        · split at heq
          · exact ExecResult.noConfusion heq
          next hp =>
            refine resolveTerm_no_panic p w hwf fuel p.main_term_index _ ?_ ?_ hp
            · rw [List.length_set, List.length_replicate]
            · exact ⟨e, list_get?_set_lt _ _ _
                (by rw [List.length_replicate]; exact hwf.1)⟩
          · exact ExecResult.noConfusion heq
        · exact ExecResult.noConfusion heq
    next hfalse => exact hfalse hwf.1
  · intro hstale
    have hm : ∀ t : QueryElement, t.matches e w = false := by
      intro t
      unfold QueryElement.matches
      rw [hstale]
    simp only [execute, List.length_replicate]
    rw [if_pos hwf.1, List.getElem?_eq_getElem hwf.1]
    simp [hm]
  · intro r src h
    unfold QueryRelationship.get_related_entities
    rw [h]
  · intro r src info h hc
    unfold QueryRelationship.get_related_entities
    rw [h]
    simp [hc]

/-- Witness for **C5 (amended)**: the chain plan is well formed, and
executing it for the stale entity 3 yields the empty result without a
panic. -/
theorem execute_never_panics_on_well_formed_witness :
    execute chainPlan chainWorld 5 3 = .ok [] :=
  (execute_never_panics_on_well_formed chainPlan chainWorld 5 3
    (by constructor <;> decide)).2.1 rfl

/-- **C6 (counterexample).** The claim says `add_relationship` fails with
the unknown-term error whenever either index is out of range.  With the
target index 5 far out of range of the one-term plan, the call
succeeds. -/
theorem add_relationship_accepts_oob_target :
    exceptIsOk (oneTermPlan.add_relationship 0 5 9 relAcc0) = true :=
  rfl

/-- **C6 (amended).** `add_relationship` validates only the source index:
it fails with `QuerySourceNotFound source` exactly when the source index is
out of range, and succeeds for any target index whatsoever when the source
is in range.  (`QueryPlanBuilder::build` takes no main index at all and
returns the accumulated plan unconditionally, so it cannot fail.) -/
theorem add_relationship_validates_source_only (p : QueryPlan)
    (source target : Nat) (c : ComponentId) (acc : RelationshipAccessor) :
    (p.terms.length ≤ source →
      p.add_relationship source target c acc =
        .error (.QuerySourceNotFound source)) ∧
    (source < p.terms.length →
      ∃ p', p.add_relationship source target c acc = .ok p') := by
  unfold QueryPlan.add_relationship
  cases hg : p.terms[source]? with
  | none =>
    refine ⟨fun _ => rfl, fun hlt => ?_⟩
    rw [List.getElem?_eq_getElem hlt] at hg
    exact Option.noConfusion hg
  | some term =>
    refine ⟨fun hle => ?_, fun _ => ⟨_, rfl⟩⟩
    rw [List.getElem?_eq_none hle] at hg
    exact Option.noConfusion hg

/-- Witness for **C6 (amended)**: on the one-term plan, source index 3 is
rejected with `QuerySourceNotFound 3`, while source 0 with the out-of-range
target 5 is accepted. -/
theorem add_relationship_validates_source_only_witness :
    oneTermPlan.add_relationship 3 0 9 relAcc0 =
      .error (.QuerySourceNotFound 3) ∧
    ∃ p', oneTermPlan.add_relationship 0 5 9 relAcc0 = .ok p' :=
  ⟨(add_relationship_validates_source_only oneTermPlan 3 0 9 relAcc0).1
      (by decide),
   (add_relationship_validates_source_only oneTermPlan 0 5 9 relAcc0).2
      (by decide)⟩

/-- **C7.** The claim states that `related_to::<R>` takes `R`'s accessor
(including the entity field offset) from the registry and fails with
`NotARelationship` when `R` has none.  The code hard-codes offset 0:
for a kind whose registry accessor has offset 8 the stored edge carries
offset 0, and for a kind with no registered accessor the edge is still
added (there is no `NotARelationship` failure path in the source). -/
theorem related_to_ignores_registry_offset :
    ((twoTermTypedBuilder.related_to kindOffset8 0 1).builder.plan.terms[0]?).map
        (fun t => t.relationships.map (fun r => r.accessor)) =
      some [RelationshipAccessor.Relationship 0 true] ∧
    kindOffset8.registeredAccessor =
      some (RelationshipAccessor.Relationship 8 true) ∧
    ((twoTermTypedBuilder.related_to kindNotRel 0 1).builder.plan.terms[0]?).map
        (fun t => t.relationships.length) = some 1 :=
  ⟨rfl, rfl, rfl⟩

/-- **C8.** The combined access of a frozen plan is the left fold of
`extend` over the terms' accesses starting from `matches_everything`, and
it covers every component read or write declared by any term. -/
theorem combined_access_covers (p : QueryPlan) :
    p.combined_access =
      (p.terms.map (fun t => t.access)).foldl FilteredAccess.extend
        FilteredAccess.matches_everything ∧
    ∀ t ∈ p.terms,
      (∀ c ∈ t.access.access.reads, c ∈ p.combined_access.access.reads) ∧
      (∀ c ∈ t.access.access.writes, c ∈ p.combined_access.access.writes) := by
  constructor
  · unfold QueryPlan.combined_access
    rw [List.foldl_map]
  · intro t ht
    constructor
    · intro c hc
      exact mem_sel_foldl_of_mem (fun a => a.reads) (fun a b => rfl)
        p.terms FilteredAccess.matches_everything t ht c hc
    · intro c hc
      exact mem_sel_foldl_of_mem (fun a => a.writes) (fun a b => rfl)
        p.terms FilteredAccess.matches_everything t ht c hc

/-- Witness for **C8**: component 5, read by term 0 of the chain plan, is
in the plan's combined access. -/
theorem combined_access_covers_witness :
    5 ∈ chainPlan.combined_access.access.reads :=
  ((combined_access_covers chainPlan).2 (QueryElement.new 0 (accRead 5))
    (by simp [chainPlan])).1 5 (by decide)

/-- **C9 (counterexample).** The claim says the storage key accepts exactly
the strings `"Dense"` and `"Sparse"`.  The code rejects `"Dense"` with the
invalid-storage declaration error. -/
theorem parse_storage_dense_is_error :
    parse_component_attrs [.nameValue "storage" (.litStr "Dense")] =
      .error (.invalidStorage "Dense") := rfl

/-- **C9 (amended).** Component-kind declarations accept exactly the
storage strings `"Table"` and `"SparseSet"` (case-sensitive); any other
string is a declaration error naming the value; and any key other than
`storage`/`change_detection` is a declaration error naming the offending
key. -/
theorem parse_component_attrs_storage_and_keys :
    (∀ s : String, s ≠ "Table" → s ≠ "SparseSet" →
      parse_component_attrs [.nameValue "storage" (.litStr s)] =
        .error (.invalidStorage s)) ∧
    parse_component_attrs [.nameValue "storage" (.litStr "Table")] =
      .ok { change_detection_enabled := true, storage := .Table } ∧
    parse_component_attrs [.nameValue "storage" (.litStr "SparseSet")] =
      .ok { change_detection_enabled := true, storage := .SparseSet } ∧
    (∀ (key : String) (lit : MetaLit),
      key ≠ "storage" → key ≠ "change_detection" →
      parse_component_attrs [.nameValue key lit] =
        .error (.unknownComponentAttribute key)) ∧
    (∀ key : String, parse_component_attrs [.otherMeta key] =
      .error (.unknownComponentAttribute key)) := by
  refine ⟨?_, rfl, rfl, ?_, fun key => rfl⟩
  · intro s h1 h2
    simp [parse_component_attrs, parseComponentAttrsFrom, h1, h2]
  · intro key lit h1 h2
    simp [parse_component_attrs, parseComponentAttrsFrom, h1, h2]

/-- Witness for **C9 (amended)**: the spec's `"Sparse"` spelling is a
declaration error naming the value, and the unknown key `on_add` is a
declaration error naming the key. -/
theorem parse_component_attrs_storage_and_keys_witness :
    parse_component_attrs [.nameValue "storage" (.litStr "Sparse")] =
      .error (.invalidStorage "Sparse") ∧
    parse_component_attrs [.nameValue "on_add" (.litBool true)] =
      .error (.unknownComponentAttribute "on_add") :=
  ⟨parse_component_attrs_storage_and_keys.1 "Sparse" (by decide) (by decide),
   parse_component_attrs_storage_and_keys.2.2.2.1 "on_add" (.litBool true)
     (by decide) (by decide)⟩

/-- **C10.** The backtracking step is restoring: every successful
`resolve_term` call returns the partial assignment exactly as it found it
(only the emitted result list grows). -/
theorem resolve_term_restores_assignment (p : QueryPlan) (w : World)
    (fuel ti : Nat) (pm pm' : Assignment) (res : List (List Entity))
    (h : resolveTerm p w fuel ti pm = .ok (pm', res)) : pm' = pm :=
  resolveTerm_preserves p w fuel ti pm pm' res h

/-- Witness for **C10**: on the chain scenario, resolving from the main
term returns the initial assignment `[some 1, none]` unchanged while
emitting the tuple `[1, 2]`. -/
theorem resolve_term_restores_assignment_witness :
    ([some 1, none] : Assignment) = [some 1, none] :=
  resolve_term_restores_assignment chainPlan chainWorld 5 0
    [some 1, none] [some 1, none] [[1, 2]] rfl

end BevyPlan
